import Mathlib

set_option autoImplicit false

/-!
Shallow embedding of the Trusted SOS core of the khidmaty-mobile repository:
the cloud-function module (`sendSos`, `setMyPhoneNumber`, the push helpers)
and the client-side trust-graph operations (`createRequest`, `respond`,
`cancelRequest`).  Machine state (Firestore documents) is passed explicitly;
fallible operations return `Except`.
-/

deriving instance DecidableEq for Except

namespace Khidmaty

/-- Whitespace trim over the character list (the source operates on JS
strings; this executable form is used instead of the built-in trim, which
is not kernel-reducible). -/
def trimChars (l : List Char) : List Char :=
  ((l.dropWhile Char.isWhitespace).reverse.dropWhile Char.isWhitespace).reverse

/-- Source `s.trim()`. -/
def jsTrim (s : String) : String := String.mk (trimChars s.toList)

/-- Source `s.startsWith(pre)`, over character lists. -/
def startsWithList : List Char → List Char → Bool
  | _, [] => true
  | [], _ :: _ => false
  | c :: cs, p :: ps => c == p && startsWithList cs ps

/-- Source `s.startsWith(pre)`. -/
def jsStartsWith (s pre : String) : Bool := startsWithList s.toList pre.toList

/-- Source `cleanString(v)`: a string value is trimmed; any non-string (modelled as
`none`) becomes the empty string. -/
def cleanString (v : Option String) : String :=
  jsTrim (v.getD "")

/-- Recursive worker for `chunk`: split a list into consecutive slices of
`n` elements (`n` is the already-sanitised size, callers pass `max 1 size`).
`fuel` bounds the number of slices; every call site passes the list's
length, which always suffices since each slice consumes at least one
element. -/
def chunkGo {α : Type} (n : Nat) : Nat → List α → List (List α)
  | _, [] => []
  | 0, _ :: _ => []
  | fuel + 1, x :: xs => (x :: xs.take (n - 1)) :: chunkGo n fuel (xs.drop (n - 1))

/-- Source `chunk(items, size)`: consecutive slices of `max 1 (trunc size)` elements,
as in the source helper. -/
def chunk {α : Type} (items : List α) (size : Nat) : List (List α) :=
  chunkGo (max 1 size) items.length items

/-- Association-list read, modelling `Map.get` / reading a Firestore doc. -/
def alGet {κ ν : Type} [DecidableEq κ] : List (κ × ν) → κ → Option ν
  | [], _ => none
  | (k', v') :: rest, k => if k' = k then some v' else alGet rest k

/-- Association-list write, modelling `Map.set` / `set()` on a Firestore doc:
replace the entry in place when the key is present, append it otherwise. -/
def alPut {κ ν : Type} [DecidableEq κ] : List (κ × ν) → κ → ν → List (κ × ν)
  | [], k, v => [(k, v)]
  | (k', v') :: rest, k, v =>
      if k' = k then (k, v) :: rest else (k', v') :: alPut rest k v

/-- Association-list delete, modelling `delete()` on a Firestore doc. -/
def alDel {κ ν : Type} [DecidableEq κ] : List (κ × ν) → κ → List (κ × ν)
  | [], _ => []
  | (k', v') :: rest, k =>
      if k' = k then alDel rest k else (k', v') :: alDel rest k

/-! ### Rate limiting (`sendSos`, step 1) -/

/-- Thirty minutes in milliseconds: the `windowMs` constant of `sendSos`. -/
def windowMs : Int := 30 * 60 * 1000

/-- A stored `sos_rate/{senderUid}` document. -/
structure RateDoc where
  windowStart : Int
  count : Int
  deriving DecidableEq, Repr

/-- Error codes of `HttpsError` raised by the callable functions, plus
`internal`, the code a callable reports for an uncaught rejection. -/
inductive HttpsErr where
  | unauthenticated
  | invalidArgument
  | resourceExhausted
  | notFound
  | permissionDenied
  | internal
  deriving DecidableEq, Repr

/-- Body of the `sendSos` rate-limit transaction: read the sender's
`sos_rate` doc (missing `windowStart` falls back to `now`, the count is
sanitised to a non-negative integer), fail `resource-exhausted` when the
window is open and the count has reached 3, otherwise write the incremented
(or reset) window.  An `Except.error` models the aborted transaction: nothing
is written. -/
def rateLimitStep (stored : Option RateDoc) (now : Int) : Except HttpsErr RateDoc :=
  let windowStart := (stored.map RateDoc.windowStart).getD now
  let count : Int := max 0 ((stored.map RateDoc.count).getD 0)
  let withinWindow : Bool := decide (now - windowStart < windowMs)
  let nextWindowStart := if withinWindow then windowStart else now
  let nextCount := if withinWindow then count + 1 else 1
  if withinWindow && decide (3 ≤ count) then
    .error .resourceExhausted
  else
    .ok ⟨nextWindowStart, nextCount⟩

/-! ### Trust graph (client-side `createRequest`, `respond`, `cancelRequest`)

`trusted/{ownerUid}/contacts/{trustedUid}` mirrors
`incoming/{trustedUid}/requests/{ownerUid}`.  `serverTimestamp()` sentinels
inside one `writeBatch` all resolve to the single commit time, modelled by
the `now` argument of each operation. -/

/-- A stored trust-edge document.  The trusted side populates
`trustedEmail`/`trustedPhone`, the incoming side populates `ownerEmail`;
fields a side does not write are `none`. -/
structure EdgeDoc where
  status : String
  requestedAt : Int
  respondedAt : Option Int
  ownerUid : String
  trustedUid : String
  trustedEmail : Option String
  trustedPhone : Option String
  ownerEmail : Option String
  deriving DecidableEq, Repr

/-- The two mirrored collections.  `trustedSide` is keyed by
`(ownerUid, trustedUid)`, `incomingSide` by `(trustedUid, ownerUid)`. -/
structure TrustGraph where
  trustedSide : List ((String × String) × EdgeDoc)
  incomingSide : List ((String × String) × EdgeDoc)
  deriving DecidableEq, Repr

/-- Post-processing of the lookup API response in `lookupUidByEmail` /
`lookupUidByPhone`: `uid && uid.trim() ? uid.trim() : null`. -/
def lookupResultUid (apiUid : Option String) : Option String :=
  match apiUid with
  | none => none
  | some u => if u ≠ "" ∧ jsTrim u ≠ "" then some (jsTrim u) else none

inductive CreateErr where
  | notSignedIn
  | noUserFound
  | selfTrust
  deriving DecidableEq, Repr

/-- Operation `createRequest` from TrustedContactsScreen, starting at the lookup
result (identifier parsing happens before the lookup and is not modelled):
fail when no account was resolved, fail on self-trust, otherwise write the
pending edge on both sides in one batch (a `set`, overwriting whatever was
stored at those keys). -/
def createRequest (now : Int) (ownerUid ownerEmail : String)
    (apiUid : Option String) (trustedEmail trustedPhone : Option String)
    (g : TrustGraph) : Except CreateErr TrustGraph :=
  if ownerUid = "" then .error .notSignedIn
  else
    match lookupResultUid apiUid with
    | none => .error .noUserFound
    | some trustedUid =>
      if trustedUid = ownerUid then .error .selfTrust
      else
        let requestedAt := now
        let ownerDoc : EdgeDoc :=
          { status := "pending", requestedAt := requestedAt, respondedAt := none
            ownerUid := ownerUid, trustedUid := trustedUid
            trustedEmail := trustedEmail, trustedPhone := trustedPhone
            ownerEmail := none }
        let incomingDoc : EdgeDoc :=
          { status := "pending", requestedAt := requestedAt, respondedAt := none
            ownerUid := ownerUid, trustedUid := trustedUid
            trustedEmail := none, trustedPhone := none
            ownerEmail := if ownerEmail = "" then none else some ownerEmail }
        .ok { trustedSide := alPut g.trustedSide (ownerUid, trustedUid) ownerDoc
              incomingSide := alPut g.incomingSide (trustedUid, ownerUid) incomingDoc }

inductive RespondErr where
  | notSignedIn
  | missingDoc
  deriving DecidableEq, Repr

/-- Operation `respond` from IncomingRequestsScreen (`uid` is the trusted account):
one batch updates `status`/`respondedAt` on both mirrored documents.
`batch.update` on a missing document fails the whole batch, leaving both
sides untouched. -/
def respond (now : Int) (uid ownerUid status : String) (g : TrustGraph) :
    Except RespondErr TrustGraph :=
  if uid = "" then .error .notSignedIn
  else
    match alGet g.incomingSide (uid, ownerUid), alGet g.trustedSide (ownerUid, uid) with
    | some incomingDoc, some ownerDoc =>
        .ok { incomingSide := alPut g.incomingSide (uid, ownerUid)
                { incomingDoc with status := status, respondedAt := some now }
              trustedSide := alPut g.trustedSide (ownerUid, uid)
                { ownerDoc with status := status, respondedAt := some now } }
    | _, _ => .error .missingDoc

/-- Operation `cancelRequest` from TrustedContactsScreen (also the Remove button):
one batch deletes both mirrored documents; deleting a missing document is a
no-op. -/
def cancelRequest (ownerUid trustedUid : String) (g : TrustGraph) : TrustGraph :=
  if ownerUid = "" then g
  else
    { trustedSide := alDel g.trustedSide (ownerUid, trustedUid)
      incomingSide := alDel g.incomingSide (trustedUid, ownerUid) }

/-- The two sides of one logical edge agree: both absent, or both present
with identical `status`, `requestedAt` and `respondedAt`. -/
def mirrorAgrees : Option EdgeDoc → Option EdgeDoc → Prop
  | none, none => True
  | some a, some b =>
      a.status = b.status ∧ a.requestedAt = b.requestedAt ∧ a.respondedAt = b.respondedAt
  | _, _ => False

instance : DecidablePred fun p : Option EdgeDoc × Option EdgeDoc => mirrorAgrees p.1 p.2 := by
  rintro ⟨a, b⟩
  cases a <;> cases b <;> simp only [mirrorAgrees] <;> infer_instance

/-- Mirror invariant of the whole trust graph. -/
def mirrorOk (g : TrustGraph) : Prop :=
  ∀ o t, mirrorAgrees (alGet g.trustedSide (o, t)) (alGet g.incomingSide (t, o))

/-! ### Phone claim (`setMyPhoneNumber`) -/

/-- Extra error codes of `setMyPhoneNumber`. -/
inductive PhoneErr where
  | unauthenticated
  | invalidArgument
  | failedPrecondition
  | alreadyExists
  deriving DecidableEq, Repr

/-- Test of the `^\+\d{8,15}$` pattern. -/
def e164Test (s : String) : Bool :=
  match s.toList with
  | '+' :: rest => decide (8 ≤ rest.length) && decide (rest.length ≤ 15) && rest.all Char.isDigit
  | _ => false

/-- Source `normalizePhone(v)` from the functions module: trim, require a leading
`+` or `00`, strip every non-digit, rebuild `+<digits>` and validate it
against `^\+\d{8,15}$`. -/
def normalizePhone (v : Option String) : Option String :=
  let raw := jsTrim (v.getD "")
  if raw = "" then none
  else
    let hasPlus := jsStartsWith raw "+"
    let has00 := jsStartsWith raw "00"
    let digits := raw.toList.filter Char.isDigit
    if digits = [] then none
    else
      let e164 :=
        if hasPlus then "+" ++ String.mk digits
        else if has00 then "+" ++ String.mk (digits.drop 2)
        else ""
      if e164 = "" then none
      else if e164Test e164 then some e164 else none

/-- The caller's `users/{uid}` document (only the field the transaction
reads). -/
structure UserDoc where
  phone : Option String
  deriving DecidableEq, Repr

/-- A `phone_index/{phone}` document (only the field the transaction
reads). -/
structure PhoneIdxDoc where
  uid : Option String
  deriving DecidableEq, Repr

/-- Inputs of one `setMyPhoneNumber` call: the authenticated uid, the raw
request phone, and the two documents the transaction touches (`userDoc` for
the caller, `phoneDoc` at the normalized number). -/
structure PhoneEnv where
  auth : Option String
  phoneRaw : Option String
  now : Int
  userDoc : Option UserDoc
  phoneDoc : Option PhoneIdxDoc
  deriving Repr

/-- Result of one `setMyPhoneNumber` call together with the final state of
the two documents.  An error leaves both documents as they were (the
transaction aborts before any write). -/
structure PhoneOutcome where
  result : Except PhoneErr String
  userDoc : Option UserDoc
  phoneDoc : Option PhoneIdxDoc
  deriving DecidableEq, Repr

/-- Callable `setMyPhoneNumber`: validate, then atomically check the caller's stored
phone (`failed-precondition` when set to a different number), check the
phone index (`already-exists` when claimed by a different account), then
write both sides. -/
def setMyPhoneNumber (env : PhoneEnv) : PhoneOutcome :=
  let uid := env.auth.getD ""
  if uid = "" then ⟨.error .unauthenticated, env.userDoc, env.phoneDoc⟩
  else
    match normalizePhone env.phoneRaw with
    | none => ⟨.error .invalidArgument, env.userDoc, env.phoneDoc⟩
    | some phone =>
      let existingPhone := cleanString (env.userDoc.bind UserDoc.phone)
      if existingPhone ≠ "" ∧ existingPhone ≠ phone then
        ⟨.error .failedPrecondition, env.userDoc, env.phoneDoc⟩
      else
        let existingUid := cleanString (env.phoneDoc.bind PhoneIdxDoc.uid)
        if existingUid ≠ "" ∧ existingUid ≠ uid then
          ⟨.error .alreadyExists, env.userDoc, env.phoneDoc⟩
        else
          ⟨.ok phone, some ⟨some phone⟩, some ⟨some uid⟩⟩

/-! ### SOS dispatch (`sendSos` and the two push transports) -/

/-- A stored `sos_events/{eventId}` document.  Coordinates are modelled as
integers; `sendSos` never reads `message`, `lat` or `lon`. -/
structure SosEvent where
  senderUid : Option String
  message : String
  lat : Int
  lon : Int
  deriving DecidableEq, Repr

/-- One `trusted/{sender}/contacts` document as returned by the
`status == "accepted"` query input collection. -/
structure ContactDoc where
  id : String
  status : String
  deriving DecidableEq, Repr

/-- One stored `devices/{uid}/tokens` document. -/
structure TokenDoc where
  refId : String
  expoPushToken : Option String
  webPushToken : Option String
  deriving DecidableEq, Repr

/-- A token document after the read in `sendSos`: both token fields run
through `cleanString`, and documents with neither token are dropped. -/
structure CleanTokenDoc where
  refId : String
  expoPushToken : String
  webPushToken : String
  deriving DecidableEq, Repr

/-- The map/filter applied to one account's token documents in `sendSos`. -/
def cleanTokenDocs (docs : List TokenDoc) : List CleanTokenDoc :=
  (docs.map fun d =>
      { refId := d.refId
        expoPushToken := cleanString d.expoPushToken
        webPushToken := cleanString d.webPushToken }).filter
    fun x => decide (x.expoPushToken ≠ "") || decide (x.webPushToken ≠ "")

/-- Source `trustedUids`: ids of the accepted contacts, with falsy (empty) ids
dropped by `.filter(Boolean)`. -/
def trustedUidsOf (contacts : List ContactDoc) : List String :=
  ((contacts.filter fun d => d.status == "accepted").map ContactDoc.id).filter
    fun s => decide (s ≠ "")

/-- One step of building a token → originating-refs map:
`const arr = m.get(t) || []; arr.push(ref); m.set(t, arr)`. -/
def insertTokenRef (m : List (String × List String)) (t refId : String) :
    List (String × List String) :=
  alPut m t (((alGet m t).getD []) ++ [refId])

/-- The token → refs map for one transport, built over all fetched token
documents in order (`select` picks the transport's token field; falsy
tokens are skipped). -/
def buildTokenMap (select : CleanTokenDoc → String) (docs : List CleanTokenDoc) :
    List (String × List String) :=
  docs.foldl (fun m d => if select d = "" then m else insertTokenRef m (select d) d.refId) []

/-- The `data` field of an Expo push message. -/
structure ExpoData where
  type : String
  eventId : String
  deriving DecidableEq, Repr

/-- An Expo push message as built in `sendSos`.  `toTok` models the `to`
field (`to` is reserved in Lean). -/
structure ExpoPushMessage where
  toTok : String
  title : String
  body : String
  sound : String
  priority : String
  channelId : String
  data : ExpoData
  deriving DecidableEq, Repr

/-- The message `sendSos` builds for one deduplicated Expo token: every
field other than `to` is a constant except `data.eventId`. -/
def mkExpoMessage (eventId t : String) : ExpoPushMessage :=
  { toTok := t, title := "🚨 SOS Alert", body := "Tap to view location"
    sound := "default", priority := "high", channelId := "sos"
    data := { type := "sos", eventId := eventId } }

/-- One per-message ticket in an Expo batch response; `detailsError` is
`ticket.details.error` when that field is a string. -/
structure ExpoTicket where
  status : String
  detailsError : Option String
  deriving DecidableEq, Repr

/-- The response to one Expo batch POST: an HTTP-level failure, or a ticket
array (whose length need not match the batch). -/
inductive ExpoBatchResponse where
  | httpError (status : Int)
  | ok (data : List ExpoTicket)
  deriving DecidableEq, Repr

/-- One entry of `sendExpoPush`'s `errors` array: either a whole-batch HTTP
failure (no token) or a per-ticket failure recording
`cleanString(batch[i]?.to)` and the raw ticket. -/
inductive ExpoErrorEntry where
  | httpError (status : Int)
  | expoError (token : String) (details : ExpoTicket)
  deriving DecidableEq, Repr

/-- Walk one batch's ticket array (index `i` running over the tickets):
`status === "ok"` counts into `ok`, anything else appends an `expo_error`
entry with the matching batch message's token. -/
def processExpoTickets (batch : List ExpoPushMessage) :
    List ExpoTicket → Nat → Int × List ExpoErrorEntry
  | [], _ => (0, [])
  | r :: rest, i =>
      let acc := processExpoTickets batch rest (i + 1)
      if r.status = "ok" then (acc.1 + 1, acc.2)
      else
        (acc.1,
          .expoError (cleanString ((batch.get? i).map ExpoPushMessage.toTok)) r :: acc.2)

/-- Sequentially POST the batches; `respond` supplies the response of the
`bi`-th batch. -/
def runExpoBatches (batches : List (List ExpoPushMessage))
    (respond : Nat → ExpoBatchResponse) (bi : Nat) : Int × List ExpoErrorEntry :=
  match batches with
  | [] => (0, [])
  | batch :: rest =>
      let head : Int × List ExpoErrorEntry :=
        match respond bi with
        | .httpError st => (0, [.httpError st])
        | .ok data => processExpoTickets batch data 0
      let tail := runExpoBatches rest respond (bi + 1)
      (head.1 + tail.1, head.2 ++ tail.2)

/-- Transport `sendExpoPush`: nothing to do on an empty message list, otherwise POST
in batches of 100 and aggregate `ok`/`errors`. -/
def sendExpoPush (messages : List ExpoPushMessage)
    (respond : Nat → ExpoBatchResponse) : Int × List ExpoErrorEntry :=
  if messages.isEmpty then (0, [])
  else runExpoBatches (chunk messages 100) respond 0

/-- The data-only payload `sendFcmWebPush` sends with every batch. -/
structure FcmData where
  type : String
  eventId : String
  title : String
  body : String
  deriving DecidableEq, Repr

/-- The payload built from the event id alone. -/
def mkFcmData (eventId : String) : FcmData :=
  { type := "sos", eventId := eventId
    title := "🚨 SOS Alert", body := "Tap to view location" }

/-- One per-token entry of a `sendEachForMulticast` response; `errorCode`
and `errorMessage` model `error.code` / `error.message` when strings. -/
structure FcmResp where
  success : Bool
  errorCode : Option String
  errorMessage : Option String
  deriving DecidableEq, Repr

/-- One multicast response (`responses` need not match the batch length). -/
structure FcmBatchResponse where
  successCount : Int
  responses : List FcmResp
  deriving DecidableEq, Repr

/-- One entry of `sendFcmWebPush`'s `errors` array; `token` is `batch[i]`,
absent when `i` runs past the batch. -/
structure FcmErrorEntry where
  token : Option String
  code : String
  message : String
  deriving DecidableEq, Repr

/-- Walk one batch's `responses` array collecting failure entries. -/
def processFcmResponses (batch : List String) :
    List FcmResp → Nat → List FcmErrorEntry
  | [], _ => []
  | r :: rest, i =>
      let tail := processFcmResponses batch rest (i + 1)
      if r.success then tail
      else
        { token := batch.get? i
          code := r.errorCode.getD ""
          message := r.errorMessage.getD "" } :: tail

/-- Sequentially send the multicast batches, summing `successCount`. -/
def runFcmBatches (batches : List (List String))
    (respond : Nat → FcmBatchResponse) (bi : Nat) : Int × List FcmErrorEntry :=
  match batches with
  | [] => (0, [])
  | batch :: rest =>
      let res := respond bi
      let tail := runFcmBatches rest respond (bi + 1)
      (res.successCount + tail.1, processFcmResponses batch res.responses 0 ++ tail.2)

/-- Transport `sendFcmWebPush`: nothing to do on an empty token list, otherwise send
in batches of 500 with the fixed data payload. -/
def sendFcmWebPush (tokens : List String)
    (respond : Nat → FcmBatchResponse) : Int × List FcmErrorEntry :=
  if tokens.isEmpty then (0, [])
  else runFcmBatches (chunk tokens 500) respond 0

/-- JS `Set.add`: keep insertion order, ignore duplicates. -/
def insertUnique (l : List String) (t : String) : List String :=
  if t ∈ l then l else l ++ [t]

/-- One iteration of the `invalidExpoTokens` loop: skip entries without a
token, add the token when the nested `details.details.error` string is one
of the two permanent codes. -/
def expoInvalidStep (s : List String) (e : ExpoErrorEntry) : List String :=
  match e with
  | .httpError _ => s
  | .expoError tok r =>
      let token := cleanString (some tok)
      if token = "" then s
      else
        let err := r.detailsError.getD ""
        if err = "DeviceNotRegistered" ∨ err = "InvalidCredentials" then
          insertUnique s token
        else s

/-- The `invalidExpoTokens` set: tokens of expo error entries whose nested
`details.details.error` string is one of the two permanent codes. -/
def invalidExpoTokensOf (errors : List ExpoErrorEntry) : List String :=
  errors.foldl expoInvalidStep []

/-- One iteration of the `invalidWebTokens` loop: skip entries without a
token, add the token when the cleaned `code` is one of the two permanent
registration-token codes. -/
def webInvalidStep (s : List String) (e : FcmErrorEntry) : List String :=
  let token := cleanString e.token
  if token = "" then s
  else
    let code := cleanString (some e.code)
    if code = "messaging/registration-token-not-registered" ∨
        code = "messaging/invalid-registration-token" then
      insertUnique s token
    else s

/-- The `invalidWebTokens` set: tokens of FCM error entries whose cleaned
`code` is one of the two permanent registration-token codes. -/
def invalidWebTokensOf (errors : List FcmErrorEntry) : List String :=
  errors.foldl webInvalidStep []

/-- Collect, in order, every originating ref of the invalid tokens:
`for (const t of invalid) refs.push(...(map.get(t) || []))`. -/
def collectRefs (m : List (String × List String)) (invalid : List String) : List String :=
  invalid.foldl (fun refs t => refs ++ ((alGet m t).getD [])) []

/-- Run the delete batches in order.  `commitOk ci` is the outcome of the
`ci`-th `batch.commit()` of this call; a failing commit deletes nothing and
aborts (the JS exception propagates).  Returns the refs actually deleted,
whether every commit succeeded, and the next commit counter. -/
def runCleanup : List (List String) → (Nat → Bool) → Nat → List String × Bool × Nat
  | [], _, ci => ([], true, ci)
  | c :: rest, commitOk, ci =>
      if commitOk ci then
        let tail := runCleanup rest commitOk (ci + 1)
        (c ++ tail.1, tail.2.1, tail.2.2)
      else ([], false, ci)

/-- Aggregate result returned by `sendSos`. -/
structure DispatchResult where
  sent : Int
  recipients : Nat
  tokens : Nat
  expoTokens : Nat
  webTokens : Nat
  errors : Nat
  deriving DecidableEq, Repr

/-- All inputs of one `sendSos` call: the authenticated uid, the request
data, and the documents / transport responses the call observes. -/
structure DispatchEnv where
  auth : Option String
  eventIdRaw : Option String
  now : Int
  rateDoc : Option RateDoc
  events : String → Option SosEvent
  contacts : List ContactDoc
  deviceTokens : String → List TokenDoc
  expoRespond : Nat → ExpoBatchResponse
  fcmRespond : Nat → FcmBatchResponse
  commitOk : Nat → Bool

/-- Result of one `sendSos` call plus the externally visible effects: the
final `sos_rate` doc, the token refs actually deleted, and the exact
payloads handed to the two transports (empty/`none` when delivery was never
reached). -/
structure DispatchOutcome where
  result : Except HttpsErr DispatchResult
  rateDoc : Option RateDoc
  deletedRefs : List String
  expoMessages : List ExpoPushMessage
  fcmTokenBatches : List (List String)
  fcmData : Option FcmData
  deriving DecidableEq, Repr

/-! #### Named intermediate values of a `sendSos` run

These name, step by step, the values the delivery part of `sendSos`
computes; `dispatchDelivery` below is assembled from them.  None of them
reads the stored event — the delivery code of the source only ever uses the
event id. -/

/-- The fetched-and-cleaned token documents of all recipients, in order. -/
def flatTokenDocsOf (env : DispatchEnv) : List CleanTokenDoc :=
  ((trustedUidsOf env.contacts).map fun u => cleanTokenDocs (env.deviceTokens u)).flatten

/-- The Expo token → refs map of the run. -/
def expoMapOf (env : DispatchEnv) : List (String × List String) :=
  buildTokenMap CleanTokenDoc.expoPushToken (flatTokenDocsOf env)

/-- The web token → refs map of the run. -/
def webMapOf (env : DispatchEnv) : List (String × List String) :=
  buildTokenMap CleanTokenDoc.webPushToken (flatTokenDocsOf env)

/-- The deduplicated Expo tokens of the run. -/
def expoTokensOf (env : DispatchEnv) : List String :=
  (expoMapOf env).map Prod.fst

/-- The deduplicated web tokens of the run. -/
def webTokensOf (env : DispatchEnv) : List String :=
  (webMapOf env).map Prod.fst

/-- The Expo messages of the run. -/
def expoMessagesOf (env : DispatchEnv) (eventId : String) : List ExpoPushMessage :=
  (expoTokensOf env).map (mkExpoMessage eventId)

/-- Aggregated Expo transport result of the run. -/
def expoResOf (env : DispatchEnv) (eventId : String) : Int × List ExpoErrorEntry :=
  sendExpoPush (expoMessagesOf env eventId) env.expoRespond

/-- Aggregated FCM transport result of the run. -/
def fcmResOf (env : DispatchEnv) : Int × List FcmErrorEntry :=
  sendFcmWebPush (webTokensOf env) env.fcmRespond

/-- The Expo tokens the run marks permanently invalid. -/
def invalidExpoOf (env : DispatchEnv) (eventId : String) : List String :=
  invalidExpoTokensOf (expoResOf env eventId).2

/-- The web tokens the run marks permanently invalid. -/
def invalidWebOf (env : DispatchEnv) : List String :=
  invalidWebTokensOf (fcmResOf env).2

/-- The delete batches of the Expo cleanup loop (none when no Expo token
was marked invalid). -/
def expoChunksOf (env : DispatchEnv) (eventId : String) : List (List String) :=
  if (invalidExpoOf env eventId).isEmpty then []
  else chunk (collectRefs (expoMapOf env) (invalidExpoOf env eventId)) 450

/-- The delete batches of the web cleanup loop (none when no web token was
marked invalid). -/
def webChunksOf (env : DispatchEnv) : List (List String) :=
  if (invalidWebOf env).isEmpty then []
  else chunk (collectRefs (webMapOf env) (invalidWebOf env)) 450

/-- Whether every token-deletion `batch.commit()` the run executes
succeeds: the Expo cleanup loop runs first, the web cleanup loop continues
the commit numbering; a failing commit aborts, so this is `false` exactly
when some executed commit of either loop fails. -/
def cleanupCommitsOkOf (env : DispatchEnv) (eventId : String) : Bool :=
  let cl1 := runCleanup (expoChunksOf env eventId) env.commitOk 0
  cl1.2.1 && (runCleanup (webChunksOf env) env.commitOk cl1.2.2).2.1

/-- Steps 3–8 of `sendSos` (recipients, tokens, delivery, classification,
cleanup, result).  This part of the source never reads the event document,
so it takes only the event id. -/
def dispatchDelivery (env : DispatchEnv) (eventId : String) (newRate : RateDoc) :
    DispatchOutcome :=
  if (trustedUidsOf env.contacts).isEmpty then
    { result := .ok ⟨0, 0, 0, 0, 0, 0⟩, rateDoc := some newRate, deletedRefs := []
      expoMessages := [], fcmTokenBatches := [], fcmData := none }
  else
    let webTokens := webTokensOf env
    let messages := expoMessagesOf env eventId
    let expoRes := expoResOf env eventId
    let fcmRes := fcmResOf env
    let fcmBatches := if webTokens.isEmpty then [] else chunk webTokens 500
    let sentData := if webTokens.isEmpty then none else some (mkFcmData eventId)
    let expoChunks := expoChunksOf env eventId
    let cl1 := runCleanup expoChunks env.commitOk 0
    if !cl1.2.1 then
      { result := .error .internal, rateDoc := some newRate, deletedRefs := cl1.1
        expoMessages := messages, fcmTokenBatches := fcmBatches, fcmData := sentData }
    else
      let webChunks := webChunksOf env
      let cl2 := runCleanup webChunks env.commitOk cl1.2.2
      if !cl2.2.1 then
        { result := .error .internal, rateDoc := some newRate, deletedRefs := cl1.1 ++ cl2.1
          expoMessages := messages, fcmTokenBatches := fcmBatches, fcmData := sentData }
      else
        { result := .ok
            { sent := expoRes.1 + fcmRes.1
              recipients := (trustedUidsOf env.contacts).length
              tokens := (expoTokensOf env).length + webTokens.length
              expoTokens := (expoTokensOf env).length
              webTokens := webTokens.length
              errors := expoRes.2.length + fcmRes.2.length }
          rateDoc := some newRate, deletedRefs := cl1.1 ++ cl2.1
          expoMessages := messages, fcmTokenBatches := fcmBatches, fcmData := sentData }

/-- Callable `sendSos`: auth, argument validation, the rate-limit transaction, the
event lookup and ownership check, then delivery.  Every early error leaves
the effects empty; the rate-limit write persists across later failures. -/
def sendSos (env : DispatchEnv) : DispatchOutcome :=
  let uid := env.auth.getD ""
  if uid = "" then
    { result := .error .unauthenticated, rateDoc := env.rateDoc, deletedRefs := []
      expoMessages := [], fcmTokenBatches := [], fcmData := none }
  else
    let eventId := cleanString env.eventIdRaw
    if eventId = "" then
      { result := .error .invalidArgument, rateDoc := env.rateDoc, deletedRefs := []
        expoMessages := [], fcmTokenBatches := [], fcmData := none }
    else
      match rateLimitStep env.rateDoc env.now with
      | .error e =>
          { result := .error e, rateDoc := env.rateDoc, deletedRefs := []
            expoMessages := [], fcmTokenBatches := [], fcmData := none }
      | .ok newRate =>
          match env.events eventId with
          | none =>
              { result := .error .notFound, rateDoc := some newRate, deletedRefs := []
                expoMessages := [], fcmTokenBatches := [], fcmData := none }
          | some ev =>
              if cleanString ev.senderUid ≠ uid then
                { result := .error .permissionDenied, rateDoc := some newRate, deletedRefs := []
                  expoMessages := [], fcmTokenBatches := [], fcmData := none }
              else
                dispatchDelivery env eventId newRate

/-- Replace the stored event at this call's event id. -/
def withEvent (env : DispatchEnv) (e : SosEvent) : DispatchEnv :=
  { env with
    events := fun k => if k = cleanString env.eventIdRaw then some e else env.events k }

/-! ### Concrete inputs used by witnesses and counterexamples -/

/-- Empty trust graph. -/
def gW0 : TrustGraph := ⟨[], []⟩

/-- The graph `createRequest 7 "a" "a@x" (some "b") … gW0` produces. -/
def gW1 : TrustGraph :=
  { trustedSide :=
      [(("a", "b"),
        { status := "pending", requestedAt := 7, respondedAt := none
          ownerUid := "a", trustedUid := "b"
          trustedEmail := some "b@x", trustedPhone := none, ownerEmail := none })]
    incomingSide :=
      [(("b", "a"),
        { status := "pending", requestedAt := 7, respondedAt := none
          ownerUid := "a", trustedUid := "b"
          trustedEmail := none, trustedPhone := none, ownerEmail := some "a@x" })] }

/-- An accepted edge of owner `"a"` and trusted account `"b"`, trusted side. -/
def eC7t : EdgeDoc :=
  { status := "accepted", requestedAt := 3, respondedAt := some 4
    ownerUid := "a", trustedUid := "b"
    trustedEmail := some "b@x", trustedPhone := none, ownerEmail := none }

/-- The mirrored incoming document of `eC7t`. -/
def eC7i : EdgeDoc :=
  { status := "accepted", requestedAt := 3, respondedAt := some 4
    ownerUid := "a", trustedUid := "b"
    trustedEmail := none, trustedPhone := none, ownerEmail := some "a@x" }

/-- A graph that already holds the edge `("a", "b")` on both sides. -/
def gC7 : TrustGraph :=
  { trustedSide := [(("a", "b"), eC7t)], incomingSide := [(("b", "a"), eC7i)] }

/-- A base dispatch environment: sender `"a"`, event `"e1"` owned by `"a"`,
one accepted contact `"b"` with one Expo-token device, all transports and
commits succeeding. -/
def envBase : DispatchEnv :=
  { auth := some "a"
    eventIdRaw := some "e1"
    now := 0
    rateDoc := none
    events := fun k =>
      if k = "e1" then some { senderUid := some "a", message := "help", lat := 32, lon := 13 }
      else none
    contacts := [{ id := "b", status := "accepted" }]
    deviceTokens := fun u =>
      if u = "b" then [{ refId := "r1", expoPushToken := some "T1", webPushToken := none }]
      else []
    expoRespond := fun _ => .ok [{ status := "ok", detailsError := none }]
    fcmRespond := fun _ => ⟨0, []⟩
    commitOk := fun _ => true }

/-- Env `envBase` with the single token reported `DeviceNotRegistered` and the
first cleanup commit failing. -/
def envC2 : DispatchEnv :=
  { envBase with
    expoRespond := fun _ => .ok [{ status := "error", detailsError := some "DeviceNotRegistered" }]
    commitOk := fun _ => false }

/-- Env `envC2` with all cleanup commits succeeding. -/
def envC2ok : DispatchEnv :=
  { envC2 with commitOk := fun _ => true }

/-- Env `envBase` with a single web-push token that FCM reports permanently
invalid, and cleanup commits failing: the failing commit belongs to the web
cleanup loop (the Expo loop has no batches to commit). -/
def envC2web : DispatchEnv :=
  { envBase with
    deviceTokens := fun u =>
      if u = "b" then [{ refId := "r1", expoPushToken := none, webPushToken := some "W1" }]
      else []
    expoRespond := fun _ => .ok []
    fcmRespond := fun _ =>
      ⟨0, [{ success := false
             errorCode := some "messaging/registration-token-not-registered"
             errorMessage := none }]⟩
    commitOk := fun _ => false }

/-- Env `envBase` with the sender already at 3 sends in an open window. -/
def envRateW : DispatchEnv :=
  { envBase with now := 5, rateDoc := some ⟨0, 3⟩ }

/-- Env `envBase` with no stored events at all. -/
def envC10 : DispatchEnv :=
  { envBase with events := fun _ => none }

/-- Env `envBase` with no accepted contacts. -/
def envC5 : DispatchEnv :=
  { envBase with contacts := [{ id := "b", status := "pending" }] }

/-- Two devices of contact `"b"` holding the identical Expo token, which the
transport reports as `DeviceNotRegistered`; cleanup commits succeed. -/
def envDup : DispatchEnv :=
  { envBase with
    deviceTokens := fun u =>
      if u = "b" then
        [{ refId := "r1", expoPushToken := some "T1", webPushToken := none },
         { refId := "r2", expoPushToken := some "T1", webPushToken := none }]
      else []
    expoRespond := fun _ => .ok [{ status := "error", detailsError := some "DeviceNotRegistered" }] }

/-- A `setMyPhoneNumber` environment: the caller re-claims its own current
number, already indexed to itself. -/
def envP : PhoneEnv :=
  { auth := some "u1"
    phoneRaw := some "+218911234567"
    now := 9
    userDoc := some ⟨some "+218911234567"⟩
    phoneDoc := some ⟨some "u1"⟩ }

/-! ## Helper lemmas -/

theorem alGet_alPut {κ ν : Type} [DecidableEq κ] (l : List (κ × ν)) (k : κ) (v : ν)
    (k' : κ) : alGet (alPut l k v) k' = if k = k' then some v else alGet l k' := by
  induction l with
  | nil => by_cases h : k = k' <;> simp [alPut, alGet, h]
  | cons p rest ih =>
    obtain ⟨a, b⟩ := p
    by_cases hak : a = k
    · subst hak
      by_cases h : a = k' <;> simp [alPut, alGet, h]
    · by_cases h : a = k'
      · subst h
        have hka : ¬k = a := fun hh => hak hh.symm
        simp [alPut, alGet, hak, hka]
      · simp [alPut, alGet, hak, h, ih]

theorem alGet_alDel {κ ν : Type} [DecidableEq κ] (l : List (κ × ν)) (k k' : κ) :
    alGet (alDel l k) k' = if k = k' then none else alGet l k' := by
  induction l with
  | nil => by_cases h : k = k' <;> simp [alDel, alGet, h]
  | cons p rest ih =>
    obtain ⟨a, b⟩ := p
    by_cases hak : a = k
    · subst hak
      have hd : alDel ((a, b) :: rest) a = alDel rest a := by simp [alDel]
      rw [hd, ih]
      by_cases h : a = k' <;> simp [alGet, h]
    · by_cases h : a = k'
      · subst h
        have hka : ¬k = a := fun hh => hak hh.symm
        simp [alDel, alGet, hak, hka]
      · simp [alDel, alGet, hak, h, ih]

theorem chunkGo_flatten {α : Type} (n : Nat) :
    ∀ (fuel : Nat) (l : List α), l.length ≤ fuel → (chunkGo n fuel l).flatten = l := by
  intro fuel
  induction fuel with
  | zero =>
    intro l hl
    cases l with
    | nil => rfl
    | cons x xs => simp at hl
  | succ f ih =>
    intro l hl
    cases l with
    | nil => rfl
    | cons x xs =>
      have hd : (xs.drop (n - 1)).length ≤ f := by
        simp only [List.length_drop]
        simp only [List.length_cons] at hl
        omega
      simp only [chunkGo, List.flatten_cons, ih _ hd]
      simp [List.take_append_drop]

theorem chunk_flatten {α : Type} (l : List α) (n : Nat) : (chunk l n).flatten = l :=
  chunkGo_flatten (max 1 n) l.length l le_rfl

theorem runCleanup_all_ok (chunks : List (List String)) (commitOk : Nat → Bool)
    (h : ∀ i, commitOk i = true) :
    ∀ ci, runCleanup chunks commitOk ci = (chunks.flatten, true, ci + chunks.length) := by
  induction chunks with
  | nil => intro ci; simp [runCleanup]
  | cons c rest ih =>
    intro ci
    simp only [runCleanup, h ci, if_true, ih (ci + 1), List.flatten_cons, List.length_cons]
    have harith : ci + 1 + rest.length = ci + (rest.length + 1) := by omega
    rw [harith]

theorem runCleanup_sub (chunks : List (List String)) (commitOk : Nat → Bool) :
    ∀ ci, ∀ r ∈ (runCleanup chunks commitOk ci).1, r ∈ chunks.flatten := by
  induction chunks with
  | nil => intro ci r hr; simp [runCleanup] at hr
  | cons c rest ih =>
    intro ci r hr
    simp only [runCleanup] at hr
    by_cases hc : commitOk ci = true
    · rw [if_pos hc] at hr
      simp only [List.mem_append] at hr
      rcases hr with hr | hr
      · simp [List.flatten_cons, List.mem_append, hr]
      · simp [List.flatten_cons, List.mem_append, ih (ci + 1) r hr]
    · rw [if_neg hc] at hr
      simp at hr

theorem mem_insertUnique (l : List String) (t u : String) :
    u ∈ insertUnique l t ↔ u ∈ l ∨ u = t := by
  unfold insertUnique
  by_cases h : t ∈ l
  · rw [if_pos h]
    constructor
    · exact Or.inl
    · rintro (h1 | rfl)
      · exact h1
      · exact h
  · rw [if_neg h]
    simp

theorem mem_collectRefs_init (m : List (String × List String)) (invalid : List String) :
    ∀ (init : List String) (x : String),
      x ∈ invalid.foldl (fun refs t => refs ++ ((alGet m t).getD [])) init ↔
        x ∈ init ∨ ∃ t ∈ invalid, x ∈ (alGet m t).getD [] := by
  induction invalid with
  | nil => intro init x; simp
  | cons t ts ih =>
    intro init x
    simp only [List.foldl_cons, ih, List.mem_append, List.mem_cons]
    constructor
    · rintro ((hx | hx) | ⟨t', ht', hx⟩)
      · exact Or.inl hx
      · exact Or.inr ⟨t, Or.inl rfl, hx⟩
      · exact Or.inr ⟨t', Or.inr ht', hx⟩
    · rintro (hx | ⟨t', ht' | ht', hx⟩)
      · exact Or.inl (Or.inl hx)
      · subst ht'; exact Or.inl (Or.inr hx)
      · exact Or.inr ⟨t', ht', hx⟩

theorem mem_collectRefs (m : List (String × List String)) (invalid : List String)
    (t x : String) (ht : t ∈ invalid) (hx : x ∈ (alGet m t).getD []) :
    x ∈ collectRefs m invalid := by
  unfold collectRefs
  exact (mem_collectRefs_init m invalid [] x).mpr (Or.inr ⟨t, ht, hx⟩)

theorem mem_foldl_expoInvalidStep (t : String) (es : List ExpoErrorEntry) :
    ∀ init : List String,
      t ∈ es.foldl expoInvalidStep init ↔
        t ∈ init ∨ ∃ tok r, ExpoErrorEntry.expoError tok r ∈ es ∧
          cleanString (some tok) = t ∧ t ≠ "" ∧
          (r.detailsError.getD "" = "DeviceNotRegistered" ∨
           r.detailsError.getD "" = "InvalidCredentials") := by
  induction es with
  | nil => intro init; simp
  | cons e es ih =>
    intro init
    cases e with
    | httpError st =>
      simp only [List.foldl_cons, expoInvalidStep, ih]
      constructor
      · rintro (h | ⟨tok, r, hm, rest⟩)
        · exact Or.inl h
        · exact Or.inr ⟨tok, r, List.mem_cons_of_mem _ hm, rest⟩
      · rintro (h | ⟨tok, r, hm, rest⟩)
        · exact Or.inl h
        · rcases List.mem_cons.mp hm with heq | hm'
          · cases heq
          · exact Or.inr ⟨tok, r, hm', rest⟩
    | expoError tok0 r0 =>
      simp only [List.foldl_cons, expoInvalidStep]
      by_cases h0 : cleanString (some tok0) = ""
      · rw [if_pos h0, ih]
        constructor
        · rintro (h | ⟨tok, r, hm, rest⟩)
          · exact Or.inl h
          · exact Or.inr ⟨tok, r, List.mem_cons_of_mem _ hm, rest⟩
        · rintro (h | ⟨tok, r, hm, h1, h2, h3⟩)
          · exact Or.inl h
          · rcases List.mem_cons.mp hm with heq | hm'
            · injection heq with e1 e2
              subst e1; subst e2
              exact absurd (h1 ▸ h0) h2
            · exact Or.inr ⟨tok, r, hm', h1, h2, h3⟩
      · by_cases hcode : r0.detailsError.getD "" = "DeviceNotRegistered" ∨
            r0.detailsError.getD "" = "InvalidCredentials"
        · rw [if_neg h0, if_pos hcode, ih]
          constructor
          · rintro (h | ⟨tok, r, hm, rest⟩)
            · rcases (mem_insertUnique init (cleanString (some tok0)) t).mp h with hin | heq
              · exact Or.inl hin
              · exact Or.inr ⟨tok0, r0, List.mem_cons_self _ _, heq.symm, heq ▸ h0, hcode⟩
            · exact Or.inr ⟨tok, r, List.mem_cons_of_mem _ hm, rest⟩
          · rintro (h | ⟨tok, r, hm, h1, h2, h3⟩)
            · exact Or.inl ((mem_insertUnique init (cleanString (some tok0)) t).mpr (Or.inl h))
            · rcases List.mem_cons.mp hm with heq | hm'
              · injection heq with e1 e2
                subst e1; subst e2
                exact Or.inl ((mem_insertUnique init (cleanString (some tok)) t).mpr
                  (Or.inr h1.symm))
              · exact Or.inr ⟨tok, r, hm', h1, h2, h3⟩
        · rw [if_neg h0, if_neg hcode, ih]
          constructor
          · rintro (h | ⟨tok, r, hm, rest⟩)
            · exact Or.inl h
            · exact Or.inr ⟨tok, r, List.mem_cons_of_mem _ hm, rest⟩
          · rintro (h | ⟨tok, r, hm, h1, h2, h3⟩)
            · exact Or.inl h
            · rcases List.mem_cons.mp hm with heq | hm'
              · injection heq with e1 e2
                subst e1; subst e2
                exact absurd h3 hcode
              · exact Or.inr ⟨tok, r, hm', h1, h2, h3⟩

theorem mem_foldl_webInvalidStep (t : String) (es : List FcmErrorEntry) :
    ∀ init : List String,
      t ∈ es.foldl webInvalidStep init ↔
        t ∈ init ∨ ∃ e, e ∈ es ∧ cleanString e.token = t ∧ t ≠ "" ∧
          (cleanString (some e.code) = "messaging/registration-token-not-registered" ∨
           cleanString (some e.code) = "messaging/invalid-registration-token") := by
  induction es with
  | nil => intro init; simp
  | cons e es ih =>
    intro init
    simp only [List.foldl_cons, webInvalidStep]
    by_cases h0 : cleanString e.token = ""
    · rw [if_pos h0, ih]
      constructor
      · rintro (h | ⟨e', hm, rest⟩)
        · exact Or.inl h
        · exact Or.inr ⟨e', List.mem_cons_of_mem _ hm, rest⟩
      · rintro (h | ⟨e', hm, h1, h2, h3⟩)
        · exact Or.inl h
        · rcases List.mem_cons.mp hm with heq | hm'
          · subst heq
            exact absurd (h1 ▸ h0) h2
          · exact Or.inr ⟨e', hm', h1, h2, h3⟩
    · by_cases hcode : cleanString (some e.code) = "messaging/registration-token-not-registered" ∨
          cleanString (some e.code) = "messaging/invalid-registration-token"
      · rw [if_neg h0, if_pos hcode, ih]
        constructor
        · rintro (h | ⟨e', hm, rest⟩)
          · rcases (mem_insertUnique init (cleanString e.token) t).mp h with hin | heq
            · exact Or.inl hin
            · exact Or.inr ⟨e, List.mem_cons_self _ _, heq.symm, heq ▸ h0, hcode⟩
          · exact Or.inr ⟨e', List.mem_cons_of_mem _ hm, rest⟩
        · rintro (h | ⟨e', hm, h1, h2, h3⟩)
          · exact Or.inl ((mem_insertUnique init (cleanString e.token) t).mpr (Or.inl h))
          · rcases List.mem_cons.mp hm with heq | hm'
            · subst heq
              exact Or.inl ((mem_insertUnique init (cleanString e'.token) t).mpr
                (Or.inr h1.symm))
            · exact Or.inr ⟨e', hm', h1, h2, h3⟩
      · rw [if_neg h0, if_neg hcode, ih]
        constructor
        · rintro (h | ⟨e', hm, rest⟩)
          · exact Or.inl h
          · exact Or.inr ⟨e', List.mem_cons_of_mem _ hm, rest⟩
        · rintro (h | ⟨e', hm, h1, h2, h3⟩)
          · exact Or.inl h
          · rcases List.mem_cons.mp hm with heq | hm'
            · subst heq
              exact absurd h3 hcode
            · exact Or.inr ⟨e', hm', h1, h2, h3⟩

theorem alGet_buildFold (sel : CleanTokenDoc → String) (docs : List CleanTokenDoc)
    (t : String) (ht : t ≠ "") :
    ∀ m : List (String × List String),
      alGet (docs.foldl
          (fun m d => if sel d = "" then m else insertTokenRef m (sel d) d.refId) m) t =
        if (docs.filter fun d => sel d == t) = [] then alGet m t
        else some (((alGet m t).getD []) ++
          ((docs.filter fun d => sel d == t).map CleanTokenDoc.refId)) := by
  induction docs with
  | nil => intro m; simp
  | cons d docs ih =>
    intro m
    simp only [List.foldl_cons, List.filter_cons]
    by_cases hsel0 : sel d = ""
    · have hne : (sel d == t) = false := by
        rw [hsel0]
        exact beq_eq_false_iff_ne.mpr fun h => ht h.symm
      rw [if_pos hsel0, hne]
      simp only [Bool.false_eq_true, if_false]
      exact ih m
    · by_cases hdt : sel d = t
      · have heq : (sel d == t) = true := beq_iff_eq.mpr hdt
        rw [if_neg hsel0, heq, hdt]
        simp only [if_true]
        have hm' : alGet (insertTokenRef m t d.refId) t =
            some ((alGet m t).getD [] ++ [d.refId]) := by
          unfold insertTokenRef
          rw [alGet_alPut]
          simp
        rw [ih (insertTokenRef m t d.refId)]
        by_cases hfil : (docs.filter fun d => sel d == t) = []
        · rw [if_pos hfil, hfil]
          simp [hm']
        · rw [if_neg hfil, hm']
          simp
      · have hne : (sel d == t) = false := beq_eq_false_iff_ne.mpr hdt
        rw [if_neg hsel0, hne]
        simp only [Bool.false_eq_true, if_false]
        have hm' : alGet (insertTokenRef m (sel d) d.refId) t = alGet m t := by
          unfold insertTokenRef
          rw [alGet_alPut, if_neg hdt]
        rw [ih (insertTokenRef m (sel d) d.refId), hm']

theorem alGet_buildTokenMap (sel : CleanTokenDoc → String) (docs : List CleanTokenDoc)
    (t : String) (ht : t ≠ "") :
    alGet (buildTokenMap sel docs) t =
      if (docs.filter fun d => sel d == t) = [] then none
      else some ((docs.filter fun d => sel d == t).map CleanTokenDoc.refId) := by
  unfold buildTokenMap
  rw [alGet_buildFold sel docs t ht []]
  by_cases hfil : (docs.filter fun d => sel d == t) = [] <;> simp [hfil, alGet]

theorem keys_alPut {κ ν : Type} [DecidableEq κ] (l : List (κ × ν)) (k : κ) (v : ν) :
    (alPut l k v).map Prod.fst =
      if k ∈ l.map Prod.fst then l.map Prod.fst else l.map Prod.fst ++ [k] := by
  induction l with
  | nil => simp [alPut]
  | cons p rest ih =>
    obtain ⟨a, b⟩ := p
    by_cases hak : a = k
    · subst hak
      simp [alPut]
    · have hka : ¬k = a := fun hh => hak hh.symm
      simp only [alPut, if_neg hak, List.map_cons, List.mem_cons]
      rw [ih]
      by_cases hmem : k ∈ rest.map Prod.fst
      · simp [hmem, hka]
      · simp [hmem, hka]

theorem mem_keys_alPut {κ ν : Type} [DecidableEq κ] (l : List (κ × ν)) (k : κ) (v : ν)
    (t : κ) : t ∈ (alPut l k v).map Prod.fst ↔ t ∈ l.map Prod.fst ∨ t = k := by
  rw [keys_alPut]
  by_cases hmem : k ∈ l.map Prod.fst
  · rw [if_pos hmem]
    constructor
    · exact Or.inl
    · rintro (h | rfl)
      · exact h
      · exact hmem
  · rw [if_neg hmem]
    simp

theorem nodup_keys_alPut {κ ν : Type} [DecidableEq κ] (l : List (κ × ν)) (k : κ) (v : ν)
    (h : (l.map Prod.fst).Nodup) : ((alPut l k v).map Prod.fst).Nodup := by
  rw [keys_alPut]
  by_cases hmem : k ∈ l.map Prod.fst
  · rw [if_pos hmem]; exact h
  · rw [if_neg hmem]
    simp [List.nodup_append, h, hmem]

theorem mem_keys_buildFold (sel : CleanTokenDoc → String) (docs : List CleanTokenDoc)
    (t : String) :
    ∀ m : List (String × List String),
      t ∈ (docs.foldl
          (fun m d => if sel d = "" then m else insertTokenRef m (sel d) d.refId) m).map
          Prod.fst ↔
        t ∈ m.map Prod.fst ∨ ∃ d ∈ docs, sel d = t ∧ t ≠ "" := by
  induction docs with
  | nil => intro m; simp
  | cons d docs ih =>
    intro m
    simp only [List.foldl_cons]
    by_cases hsel0 : sel d = ""
    · rw [if_pos hsel0, ih]
      constructor
      · rintro (h | ⟨d', hd', rest⟩)
        · exact Or.inl h
        · exact Or.inr ⟨d', List.mem_cons_of_mem _ hd', rest⟩
      · rintro (h | ⟨d', hd', h1, h2⟩)
        · exact Or.inl h
        · rcases List.mem_cons.mp hd' with heq | hd''
          · subst heq
            exact absurd (h1 ▸ hsel0) h2
          · exact Or.inr ⟨d', hd'', h1, h2⟩
    · rw [if_neg hsel0, ih]
      unfold insertTokenRef
      rw [mem_keys_alPut]
      constructor
      · rintro ((h | h) | ⟨d', hd', rest⟩)
        · exact Or.inl h
        · exact Or.inr ⟨d, List.mem_cons_self _ _, h.symm, h ▸ hsel0⟩
        · exact Or.inr ⟨d', List.mem_cons_of_mem _ hd', rest⟩
      · rintro (h | ⟨d', hd', h1, h2⟩)
        · exact Or.inl (Or.inl h)
        · rcases List.mem_cons.mp hd' with heq | hd''
          · subst heq
            exact Or.inl (Or.inr h1.symm)
          · exact Or.inr ⟨d', hd'', h1, h2⟩

theorem mem_keys_buildTokenMap (sel : CleanTokenDoc → String) (docs : List CleanTokenDoc)
    (t : String) :
    t ∈ (buildTokenMap sel docs).map Prod.fst ↔ ∃ d ∈ docs, sel d = t ∧ t ≠ "" := by
  unfold buildTokenMap
  rw [mem_keys_buildFold]
  simp

theorem nodup_keys_buildFold (sel : CleanTokenDoc → String) (docs : List CleanTokenDoc) :
    ∀ m : List (String × List String), (m.map Prod.fst).Nodup →
      ((docs.foldl
          (fun m d => if sel d = "" then m else insertTokenRef m (sel d) d.refId) m).map
          Prod.fst).Nodup := by
  induction docs with
  | nil => intro m hm; exact hm
  | cons d docs ih =>
    intro m hm
    simp only [List.foldl_cons]
    by_cases hsel0 : sel d = ""
    · rw [if_pos hsel0]
      exact ih m hm
    · rw [if_neg hsel0]
      exact ih _ (nodup_keys_alPut _ _ _ hm)

theorem nodup_keys_buildTokenMap (sel : CleanTokenDoc → String) (docs : List CleanTokenDoc) :
    ((buildTokenMap sel docs).map Prod.fst).Nodup := by
  unfold buildTokenMap
  exact nodup_keys_buildFold sel docs [] (by simp)

theorem count_keys_buildTokenMap (sel : CleanTokenDoc → String) (docs : List CleanTokenDoc)
    (t : String) (ht : t ≠ "") (hmem : ∃ d ∈ docs, sel d = t) :
    ((buildTokenMap sel docs).map Prod.fst).count t = 1 := by
  have hnd := nodup_keys_buildTokenMap sel docs
  have hm : t ∈ (buildTokenMap sel docs).map Prod.fst := by
    rw [mem_keys_buildTokenMap]
    obtain ⟨d, hd, hdt⟩ := hmem
    exact ⟨d, hd, hdt, ht⟩
  have h1 : ((buildTokenMap sel docs).map Prod.fst).count t ≤ 1 :=
    List.nodup_iff_count_le_one.mp hnd t
  have h2 : 1 ≤ ((buildTokenMap sel docs).map Prod.fst).count t := by
    have := List.count_pos_iff.mpr hm
    omega
  omega

theorem cleanup_chunks_flatten (l : List String) (m : List (String × List String)) :
    ((if l.isEmpty then [] else chunk (collectRefs m l) 450) : List (List String)).flatten =
      collectRefs m l := by
  by_cases hl : l.isEmpty
  · rw [if_pos hl]
    have hnil : l = [] := List.isEmpty_iff.mp hl
    subst hnil
    rfl
  · rw [if_neg hl]
    exact chunk_flatten _ _

theorem expoChunksOf_flatten (env : DispatchEnv) (eid : String) :
    (expoChunksOf env eid).flatten =
      collectRefs (expoMapOf env) (invalidExpoOf env eid) := by
  unfold expoChunksOf
  exact cleanup_chunks_flatten _ _

theorem webChunksOf_flatten (env : DispatchEnv) :
    (webChunksOf env).flatten = collectRefs (webMapOf env) (invalidWebOf env) := by
  unfold webChunksOf
  exact cleanup_chunks_flatten _ _

theorem dispatchDelivery_deletedRefs_sub (env : DispatchEnv) (eid : String)
    (newRate : RateDoc) :
    ∀ r ∈ (dispatchDelivery env eid newRate).deletedRefs,
      r ∈ collectRefs (expoMapOf env) (invalidExpoOf env eid) ∨
      r ∈ collectRefs (webMapOf env) (invalidWebOf env) := by
  intro r hr
  simp only [dispatchDelivery] at hr
  by_cases hne : (trustedUidsOf env.contacts).isEmpty
  · rw [if_pos hne] at hr
    simp only [List.not_mem_nil] at hr
  · rw [if_neg hne] at hr
    have hsub1 : ∀ x ∈ (runCleanup (expoChunksOf env eid) env.commitOk 0).1,
        x ∈ collectRefs (expoMapOf env) (invalidExpoOf env eid) := by
      intro x hx
      have := runCleanup_sub _ env.commitOk 0 x hx
      rwa [expoChunksOf_flatten] at this
    have hsub2 : ∀ ci, ∀ x ∈ (runCleanup (webChunksOf env) env.commitOk ci).1,
        x ∈ collectRefs (webMapOf env) (invalidWebOf env) := by
      intro ci x hx
      have := runCleanup_sub _ env.commitOk ci x hx
      rwa [webChunksOf_flatten] at this
    by_cases hb1 : (!(runCleanup (expoChunksOf env eid) env.commitOk 0).2.1) = true
    · rw [if_pos hb1] at hr
      exact Or.inl (hsub1 r hr)
    · rw [if_neg hb1] at hr
      by_cases hb2 : (!(runCleanup (webChunksOf env) env.commitOk
          (runCleanup (expoChunksOf env eid) env.commitOk 0).2.2).2.1) = true
      · rw [if_pos hb2] at hr
        rcases List.mem_append.mp hr with hr | hr
        · exact Or.inl (hsub1 r hr)
        · exact Or.inr (hsub2 _ r hr)
      · rw [if_neg hb2] at hr
        rcases List.mem_append.mp hr with hr | hr
        · exact Or.inl (hsub1 r hr)
        · exact Or.inr (hsub2 _ r hr)

theorem dispatchDelivery_deletedRefs_all_ok (env : DispatchEnv) (eid : String)
    (newRate : RateDoc)
    (hne : (trustedUidsOf env.contacts).isEmpty = false)
    (hcommit : ∀ i, env.commitOk i = true) :
    (dispatchDelivery env eid newRate).deletedRefs =
      collectRefs (expoMapOf env) (invalidExpoOf env eid) ++
      collectRefs (webMapOf env) (invalidWebOf env) := by
  simp only [dispatchDelivery, hne, Bool.false_eq_true, if_false,
    runCleanup_all_ok _ env.commitOk hcommit, Bool.not_true]
  rw [expoChunksOf_flatten, webChunksOf_flatten]

theorem sendSos_reaches_delivery (env : DispatchEnv) (uid : String) (newRate : RateDoc)
    (ev : SosEvent)
    (hu : env.auth = some uid) (hu0 : uid ≠ "")
    (he : cleanString env.eventIdRaw ≠ "")
    (hr : rateLimitStep env.rateDoc env.now = .ok newRate)
    (hev : env.events (cleanString env.eventIdRaw) = some ev)
    (hown : cleanString ev.senderUid = uid) :
    sendSos env = dispatchDelivery env (cleanString env.eventIdRaw) newRate := by
  have huid : env.auth.getD "" = uid := by rw [hu]; rfl
  simp [sendSos, huid, hu0, he, hr, hev, hown]

theorem flatTokenDocs_of_no_recipients (env : DispatchEnv)
    (h : (trustedUidsOf env.contacts).isEmpty = true) : flatTokenDocsOf env = [] := by
  have h0 : trustedUidsOf env.contacts = [] := List.isEmpty_iff.mp h
  simp [flatTokenDocsOf, h0]

theorem dispatchDelivery_ok_errors (env : DispatchEnv) (eid : String) (newRate : RateDoc)
    (res : DispatchResult)
    (h : (dispatchDelivery env eid newRate).result = .ok res) :
    res.errors = (expoResOf env eid).2.length + (fcmResOf env).2.length := by
  simp only [dispatchDelivery] at h
  by_cases hne : (trustedUidsOf env.contacts).isEmpty
  · rw [if_pos hne] at h
    simp only [Except.ok.injEq] at h
    subst h
    have hflat : flatTokenDocsOf env = [] := flatTokenDocs_of_no_recipients env hne
    simp [expoResOf, expoMessagesOf, expoTokensOf, expoMapOf, webTokensOf, webMapOf,
      fcmResOf, hflat, buildTokenMap, sendExpoPush, sendFcmWebPush]
  · rw [if_neg hne] at h
    by_cases hb1 : (!(runCleanup (expoChunksOf env eid) env.commitOk 0).2.1) = true
    · rw [if_pos hb1] at h
      simp at h
    · rw [if_neg hb1] at h
      by_cases hb2 : (!(runCleanup (webChunksOf env) env.commitOk
          (runCleanup (expoChunksOf env eid) env.commitOk 0).2.2).2.1) = true
      · rw [if_pos hb2] at h
        simp at h
      · rw [if_neg hb2] at h
        simp only [Except.ok.injEq] at h
        subst h
        rfl

theorem cleanupCommitsOk_of_no_recipients (env : DispatchEnv) (eid : String)
    (h : (trustedUidsOf env.contacts).isEmpty = true) :
    cleanupCommitsOkOf env eid = true := by
  have hflat : flatTokenDocsOf env = [] := flatTokenDocs_of_no_recipients env h
  simp [cleanupCommitsOkOf, expoChunksOf, webChunksOf, invalidExpoOf, invalidWebOf,
    expoResOf, fcmResOf, expoMessagesOf, expoTokensOf, webTokensOf, expoMapOf, webMapOf,
    hflat, buildTokenMap, invalidExpoTokensOf, invalidWebTokensOf, sendExpoPush,
    sendFcmWebPush, runCleanup]

theorem filter_length_map {α β : Type} (f : α → β) (p : β → Bool) (l : List α) :
    ((l.map f).filter p).length = (l.filter fun x => p (f x)).length := by
  induction l with
  | nil => rfl
  | cons x xs ih =>
    simp only [List.map_cons, List.filter_cons]
    cases hp : p (f x) <;> simp [hp, ih]

theorem expoMessages_filter_count (env : DispatchEnv) (eid t : String) :
    ((expoMessagesOf env eid).filter fun msg => msg.toTok == t).length =
      (expoTokensOf env).count t := by
  unfold expoMessagesOf
  rw [filter_length_map]
  have hfun : (fun k => (mkExpoMessage eid k).toTok == t) = fun k : String => k == t := by
    funext k; rfl
  rw [hfun, ← List.countP_eq_length_filter]
  rfl

/-! ## Claim theorems -/

/-- Claim C6: after every successful trust-graph operation (creating a
request, responding accepted/rejected, cancelling/removing), the owner's
outgoing record and the trusted account's incoming record have identical
status and identical requestedAt/respondedAt timestamps (and on deletion
both sides are removed); no operation leaves the two sides divergent. -/
theorem trust_mirror_invariant_preserved (g : TrustGraph) (hg : mirrorOk g) :
    (∀ now ownerUid ownerEmail apiUid trustedEmail trustedPhone g',
        createRequest now ownerUid ownerEmail apiUid trustedEmail trustedPhone g = .ok g' →
        mirrorOk g') ∧
    (∀ now uid ownerUid status g',
        respond now uid ownerUid status g = .ok g' → mirrorOk g') ∧
    (∀ ownerUid trustedUid, mirrorOk (cancelRequest ownerUid trustedUid g)) := by
  refine ⟨?_, ?_, ?_⟩
  · intro now ownerUid ownerEmail apiUid te tp g' h
    by_cases h0 : ownerUid = ""
    · simp [createRequest, h0] at h
    · cases hl : lookupResultUid apiUid with
      | none => simp [createRequest, h0, hl] at h
      | some trustedUid =>
        by_cases hself : trustedUid = ownerUid
        · simp [createRequest, h0, hl, hself] at h
        · simp only [createRequest, if_neg h0, hl, if_neg hself] at h
          rw [Except.ok.injEq] at h
          subst h
          intro o t
          simp only [alGet_alPut]
          by_cases hk : (ownerUid, trustedUid) = (o, t)
          · injection hk with h1 h2
            subst h1; subst h2
            simp [mirrorAgrees]
          · have hk2 : ¬(trustedUid, ownerUid) = (t, o) := by
              intro hh
              injection hh with h1 h2
              exact hk (by rw [h2, h1])
            rw [if_neg hk, if_neg hk2]
            exact hg o t
  · intro now uid ownerUid status g' h
    by_cases h0 : uid = ""
    · simp [respond, h0] at h
    · cases hi : alGet g.incomingSide (uid, ownerUid) with
      | none => simp [respond, h0, hi] at h
      | some incomingDoc =>
        cases ht : alGet g.trustedSide (ownerUid, uid) with
        | none => simp [respond, h0, hi, ht] at h
        | some ownerDoc =>
          simp only [respond, if_neg h0, hi, ht] at h
          rw [Except.ok.injEq] at h
          subst h
          have hmm := hg ownerUid uid
          rw [ht, hi] at hmm
          simp only [mirrorAgrees] at hmm
          obtain ⟨hs, hreq, hresp⟩ := hmm
          intro o t
          simp only [alGet_alPut]
          by_cases hk : (ownerUid, uid) = (o, t)
          · injection hk with h1 h2
            subst h1; subst h2
            simp [mirrorAgrees, hreq]
          · have hk2 : ¬(uid, ownerUid) = (t, o) := by
              intro hh
              injection hh with h1 h2
              exact hk (by rw [h2, h1])
            rw [if_neg hk, if_neg hk2]
            exact hg o t
  · intro ownerUid trustedUid
    by_cases h0 : ownerUid = ""
    · simpa [cancelRequest, h0] using hg
    · intro o t
      simp only [cancelRequest, if_neg h0]
      simp only [alGet_alDel]
      by_cases hk : (ownerUid, trustedUid) = (o, t)
      · injection hk with h1 h2
        subst h1; subst h2
        simp [mirrorAgrees]
      · have hk2 : ¬(trustedUid, ownerUid) = (t, o) := by
          intro hh
          injection hh with h1 h2
          exact hk (by rw [h2, h1])
        rw [if_neg hk, if_neg hk2]
        exact hg o t

/-- Witness for the mirror-invariant theorem: the empty graph satisfies the
invariant, and the concrete request `createRequest 7 "a" …` on it yields
the mirror-consistent graph `gW1`. -/
theorem trust_mirror_invariant_preserved_witness : mirrorOk gW1 :=
  (trust_mirror_invariant_preserved gW0 (fun _ _ => trivial)).1
    7 "a" "a@x" (some "b") (some "b@x") none gW1 (by decide)

/-- Claim C7 (counterexample): with the edge ("a","b") already stored on
both sides, createRequest for the very same pair succeeds — overwriting the
accepted edge with a fresh pending one — instead of failing as the claim
states. -/
theorem createRequest_existing_edge_cex :
    alGet gC7.trustedSide ("a", "b") = some eC7t ∧
    createRequest 20 "a" "a@x" (some "b") (some "b@x") none gC7 =
      .ok { trustedSide :=
              [(("a", "b"),
                { status := "pending", requestedAt := 20, respondedAt := none
                  ownerUid := "a", trustedUid := "b"
                  trustedEmail := some "b@x", trustedPhone := none, ownerEmail := none })]
            incomingSide :=
              [(("b", "a"),
                { status := "pending", requestedAt := 20, respondedAt := none
                  ownerUid := "a", trustedUid := "b"
                  trustedEmail := none, trustedPhone := none, ownerEmail := some "a@x" })] } := by
  decide

/-- Claim C7 (amended): createRequest fails when identifier resolution
finds no account and when the resolved account equals the owner; in every
other case it writes a fresh pending edge on both sides unconditionally —
an already-existing edge is overwritten, not rejected. -/
theorem createRequest_preconditions_amended (now : Int)
    (ownerUid ownerEmail : String) (apiUid : Option String)
    (trustedEmail trustedPhone : Option String) (g : TrustGraph)
    (h0 : ownerUid ≠ "") :
    (lookupResultUid apiUid = none →
      createRequest now ownerUid ownerEmail apiUid trustedEmail trustedPhone g =
        .error .noUserFound) ∧
    (lookupResultUid apiUid = some ownerUid →
      createRequest now ownerUid ownerEmail apiUid trustedEmail trustedPhone g =
        .error .selfTrust) ∧
    (∀ trustedUid, lookupResultUid apiUid = some trustedUid → trustedUid ≠ ownerUid →
      createRequest now ownerUid ownerEmail apiUid trustedEmail trustedPhone g =
        .ok { trustedSide := alPut g.trustedSide (ownerUid, trustedUid)
                { status := "pending", requestedAt := now, respondedAt := none
                  ownerUid := ownerUid, trustedUid := trustedUid
                  trustedEmail := trustedEmail, trustedPhone := trustedPhone
                  ownerEmail := none }
              incomingSide := alPut g.incomingSide (trustedUid, ownerUid)
                { status := "pending", requestedAt := now, respondedAt := none
                  ownerUid := ownerUid, trustedUid := trustedUid
                  trustedEmail := none, trustedPhone := none
                  ownerEmail := if ownerEmail = "" then none else some ownerEmail } }) := by
  refine ⟨fun hl => ?_, fun hl => ?_, fun trustedUid hl hne => ?_⟩
  · simp [createRequest, h0, hl]
  · simp [createRequest, h0, hl]
  · simp [createRequest, h0, hl, hne]

/-- Witness for the amended C7 theorem at a concrete input. -/
theorem createRequest_preconditions_amended_witness :
    createRequest 20 "a" "a@x" none none none gW0 = .error .noUserFound :=
  (createRequest_preconditions_amended 20 "a" "a@x" none none none gW0 (by decide)).1 rfl

/-- Claim C9: for every authenticated caller and valid normalized number,
setMyPhoneNumber fails failed-precondition when the caller's stored phone is
already set to a different number, fails already-exists when the phone index
maps the number to a different account, and otherwise (including re-claiming
the caller's own current number) writes both the caller's phone field and
the index entry; on failure neither side is written. -/
theorem setMyPhoneNumber_claim_semantics (env : PhoneEnv) (uid phone : String)
    (hu : env.auth = some uid) (hu0 : uid ≠ "")
    (hp : normalizePhone env.phoneRaw = some phone) :
    (cleanString (env.userDoc.bind UserDoc.phone) ≠ "" →
     cleanString (env.userDoc.bind UserDoc.phone) ≠ phone →
      setMyPhoneNumber env = ⟨.error .failedPrecondition, env.userDoc, env.phoneDoc⟩) ∧
    ((cleanString (env.userDoc.bind UserDoc.phone) = "" ∨
      cleanString (env.userDoc.bind UserDoc.phone) = phone) →
     cleanString (env.phoneDoc.bind PhoneIdxDoc.uid) ≠ "" →
     cleanString (env.phoneDoc.bind PhoneIdxDoc.uid) ≠ uid →
      setMyPhoneNumber env = ⟨.error .alreadyExists, env.userDoc, env.phoneDoc⟩) ∧
    ((cleanString (env.userDoc.bind UserDoc.phone) = "" ∨
      cleanString (env.userDoc.bind UserDoc.phone) = phone) →
     (cleanString (env.phoneDoc.bind PhoneIdxDoc.uid) = "" ∨
      cleanString (env.phoneDoc.bind PhoneIdxDoc.uid) = uid) →
      setMyPhoneNumber env = ⟨.ok phone, some ⟨some phone⟩, some ⟨some uid⟩⟩) := by
  have huid : env.auth.getD "" = uid := by rw [hu]; rfl
  refine ⟨fun h1 h2 => ?_, fun h1 h2 h3 => ?_, fun h1 h2 => ?_⟩
  · simp only [setMyPhoneNumber, huid, if_neg hu0, hp]
    rw [if_pos ⟨h1, h2⟩]
  · have hng : ¬(cleanString (env.userDoc.bind UserDoc.phone) ≠ "" ∧
        cleanString (env.userDoc.bind UserDoc.phone) ≠ phone) := by
      rcases h1 with h | h <;> simp [h]
    simp only [setMyPhoneNumber, huid, if_neg hu0, hp]
    rw [if_neg hng, if_pos ⟨h2, h3⟩]
  · have hng : ¬(cleanString (env.userDoc.bind UserDoc.phone) ≠ "" ∧
        cleanString (env.userDoc.bind UserDoc.phone) ≠ phone) := by
      rcases h1 with h | h <;> simp [h]
    have hng2 : ¬(cleanString (env.phoneDoc.bind PhoneIdxDoc.uid) ≠ "" ∧
        cleanString (env.phoneDoc.bind PhoneIdxDoc.uid) ≠ uid) := by
      rcases h2 with h | h <;> simp [h]
    simp only [setMyPhoneNumber, huid, if_neg hu0, hp]
    rw [if_neg hng, if_neg hng2]

/-- Witness for C9: re-claiming the caller's own current number succeeds and
rewrites both sides. -/
theorem setMyPhoneNumber_claim_semantics_witness :
    setMyPhoneNumber envP =
      ⟨.ok "+218911234567", some ⟨some "+218911234567"⟩, some ⟨some "u1"⟩⟩ :=
  (setMyPhoneNumber_claim_semantics envP "u1" "+218911234567" rfl (by decide)
      (by decide)).2.2 (Or.inr (by decide)) (Or.inr (by decide))

/-- Claim C1: the dispatch rate limit allows exactly 3 calls per open
30-minute window: from an absent window the first call stores
{windowStart := now, count := 1}; while the window is open each of the
first 3 calls increments the count by 1; a further call while the window is
open and the count has reached 3 fails resource-exhausted and leaves the
stored window unchanged; a call at or past the window boundary succeeds
with a reset {windowStart := now, count := 1}. -/
theorem sendSos_rate_limit_three_per_window (ws c now : Int) (env : DispatchEnv) :
    rateLimitStep none now = .ok ⟨now, 1⟩ ∧
    (now - ws < windowMs → 0 ≤ c → c < 3 →
      rateLimitStep (some ⟨ws, c⟩) now = .ok ⟨ws, c + 1⟩) ∧
    (now - ws < windowMs → 3 ≤ c →
      rateLimitStep (some ⟨ws, c⟩) now = .error .resourceExhausted) ∧
    (windowMs ≤ now - ws → rateLimitStep (some ⟨ws, c⟩) now = .ok ⟨now, 1⟩) ∧
    (env.auth.getD "" ≠ "" → cleanString env.eventIdRaw ≠ "" →
      rateLimitStep env.rateDoc env.now = .error .resourceExhausted →
      sendSos env = { result := .error .resourceExhausted, rateDoc := env.rateDoc
                      deletedRefs := [], expoMessages := [], fcmTokenBatches := []
                      fcmData := none }) := by
  refine ⟨?_, fun h1 h2 h3 => ?_, fun h1 h3 => ?_, fun h1 => ?_, fun h1 h2 h3 => ?_⟩
  · have hd : decide (now - now < windowMs) = true :=
      decide_eq_true (by norm_num [windowMs])
    simp [rateLimitStep, hd]
  · have hmax : (0 : Int) ⊔ c = c := max_eq_right h2
    simp [rateLimitStep, hmax, decide_eq_true h1, decide_eq_false (not_le.mpr h3)]
  · have hc0 : (0 : Int) ≤ c := le_trans (by norm_num) h3
    have hmax : (0 : Int) ⊔ c = c := max_eq_right hc0
    simp [rateLimitStep, hmax, decide_eq_true h1, decide_eq_true h3]
  · simp [rateLimitStep, decide_eq_false (not_lt.mpr h1)]
  · simp [sendSos, h1, h2, h3]

/-- Witness for C1 at concrete inputs: a fresh window, the second call, the
blocked fourth call (also through the whole sendSos with the stored window
untouched), and the reset at the window boundary. -/
theorem sendSos_rate_limit_three_per_window_witness :
    rateLimitStep none 10 = .ok ⟨10, 1⟩ ∧
    rateLimitStep (some ⟨0, 1⟩) 10 = .ok ⟨0, 2⟩ ∧
    rateLimitStep (some ⟨0, 3⟩) 10 = .error .resourceExhausted ∧
    rateLimitStep (some ⟨0, 2⟩) windowMs = .ok ⟨windowMs, 1⟩ ∧
    sendSos envRateW = { result := .error .resourceExhausted, rateDoc := envRateW.rateDoc
                         deletedRefs := [], expoMessages := [], fcmTokenBatches := []
                         fcmData := none } :=
  ⟨(sendSos_rate_limit_three_per_window 0 0 10 envRateW).1,
   (sendSos_rate_limit_three_per_window 0 1 10 envRateW).2.1 (by decide) (by decide) (by decide),
   (sendSos_rate_limit_three_per_window 0 3 10 envRateW).2.2.1 (by decide) (by decide),
   (sendSos_rate_limit_three_per_window 0 2 windowMs envRateW).2.2.2.1 (by decide),
   (sendSos_rate_limit_three_per_window 0 0 10 envRateW).2.2.2.2 (by decide) (by decide)
     (by decide)⟩

/-- Claim C10: the rate-window increment is committed before the event
lookup and ownership check, so a call that passes the rate-limit step and
then fails not-found or permission-denied still leaves the incremented (or
reset) window stored. -/
theorem sendSos_failed_call_consumes_budget (env : DispatchEnv) (uid : String)
    (newRate : RateDoc)
    (hu : env.auth = some uid) (hu0 : uid ≠ "")
    (he : cleanString env.eventIdRaw ≠ "")
    (hr : rateLimitStep env.rateDoc env.now = .ok newRate) :
    (env.events (cleanString env.eventIdRaw) = none →
      sendSos env = { result := .error .notFound, rateDoc := some newRate, deletedRefs := []
                      expoMessages := [], fcmTokenBatches := [], fcmData := none }) ∧
    (∀ ev, env.events (cleanString env.eventIdRaw) = some ev →
      cleanString ev.senderUid ≠ uid →
      sendSos env = { result := .error .permissionDenied, rateDoc := some newRate
                      deletedRefs := [], expoMessages := [], fcmTokenBatches := []
                      fcmData := none }) := by
  have huid : env.auth.getD "" = uid := by rw [hu]; rfl
  constructor
  · intro hev
    simp [sendSos, huid, hu0, he, hr, hev]
  · intro ev hev hown
    simp [sendSos, huid, hu0, he, hr, hev, hown]

/-- Witness for C10: a call on an absent event consumes one unit of the
fresh window. -/
theorem sendSos_failed_call_consumes_budget_witness :
    sendSos envC10 = { result := .error .notFound, rateDoc := some ⟨0, 1⟩, deletedRefs := []
                       expoMessages := [], fcmTokenBatches := [], fcmData := none } :=
  (sendSos_failed_call_consumes_budget envC10 "a" ⟨0, 1⟩ rfl (by decide) (by decide)
      (by decide)).1 rfl

/-- Claim C5: past the rate-limit and ownership checks, an empty list of
accepted trusted contacts yields the successful zero result, not an
error. -/
theorem sendSos_no_recipients_success (env : DispatchEnv) (uid : String)
    (newRate : RateDoc) (ev : SosEvent)
    (hu : env.auth = some uid) (hu0 : uid ≠ "")
    (he : cleanString env.eventIdRaw ≠ "")
    (hr : rateLimitStep env.rateDoc env.now = .ok newRate)
    (hev : env.events (cleanString env.eventIdRaw) = some ev)
    (hown : cleanString ev.senderUid = uid)
    (hempty : trustedUidsOf env.contacts = []) :
    (sendSos env).result = .ok ⟨0, 0, 0, 0, 0, 0⟩ := by
  have huid : env.auth.getD "" = uid := by rw [hu]; rfl
  simp [sendSos, huid, hu0, he, hr, hev, hown, dispatchDelivery, hempty]

/-- Witness for C5: a sender whose only contact is still pending. -/
theorem sendSos_no_recipients_success_witness :
    (sendSos envC5).result = .ok ⟨0, 0, 0, 0, 0, 0⟩ :=
  sendSos_no_recipients_success envC5 "a" ⟨0, 1⟩
    { senderUid := some "a", message := "help", lat := 32, lon := 13 }
    rfl (by decide) (by decide) (by decide) (by decide) (by decide) (by decide)

/-- Claim C8: the payloads handed to both transports are a function of the
event id only — replacing the stored event by one with the same sender but
different message/coordinates leaves the Expo messages, the FCM token
batches and the FCM data payload unchanged. -/
theorem push_payload_noninterference (env : DispatchEnv) (e1 e2 : SosEvent)
    (hs : e1.senderUid = e2.senderUid) :
    (sendSos (withEvent env e1)).expoMessages = (sendSos (withEvent env e2)).expoMessages ∧
    (sendSos (withEvent env e1)).fcmTokenBatches = (sendSos (withEvent env e2)).fcmTokenBatches ∧
    (sendSos (withEvent env e1)).fcmData = (sendSos (withEvent env e2)).fcmData := by
  have hfull : sendSos (withEvent env e1) = sendSos (withEvent env e2) := by
    by_cases h0 : env.auth.getD "" = ""
    · simp [sendSos, withEvent, h0]
    · by_cases h1 : cleanString env.eventIdRaw = ""
      · simp [sendSos, withEvent, h0, h1]
      · cases hr : rateLimitStep env.rateDoc env.now with
        | error e => simp [sendSos, withEvent, h0, h1, hr]
        | ok newRate =>
          have hss : cleanString e1.senderUid = cleanString e2.senderUid := by rw [hs]
          simp only [sendSos, withEvent, if_neg h0, if_neg h1, hr, if_true]
          rw [hss]
          exact rfl
  exact ⟨by rw [hfull], by rw [hfull], by rw [hfull]⟩

/-- Witness for C8: two concrete events differing in message and
coordinates produce the same Expo messages. -/
theorem push_payload_noninterference_witness :
    (sendSos (withEvent envBase { senderUid := some "a", message := "m1", lat := 1, lon := 2 })).expoMessages =
    (sendSos (withEvent envBase { senderUid := some "a", message := "m2", lat := 3, lon := 4 })).expoMessages :=
  (push_payload_noninterference envBase
      { senderUid := some "a", message := "m1", lat := 1, lon := 2 }
      { senderUid := some "a", message := "m2", lat := 3, lon := 4 } rfl).1

/-- Claim C2 (counterexample): same dispatch, all-succeeding cleanup
commits versus a failing first commit — with the commit failing, sendSos
does not return the dispatch result; it fails with an internal error. -/
theorem sendSos_cleanup_commit_failure_cex :
    (sendSos envC2ok).result = .ok ⟨0, 1, 1, 1, 0, 1⟩ ∧
    (sendSos envC2).result = .error .internal := by
  decide

/-- Claim C2 (amended): token cleanup is not best-effort — when any
token-deletion batch commit the run executes fails, whether in the Expo
cleanup loop or in the web cleanup loop and at any batch position
(`cleanupCommitsOkOf` is false exactly then), the failure propagates and
sendSos fails with an internal error instead of returning the dispatch
result. -/
theorem sendSos_cleanup_commit_failure_aborts (env : DispatchEnv) (uid : String)
    (newRate : RateDoc) (ev : SosEvent)
    (hu : env.auth = some uid) (hu0 : uid ≠ "")
    (he : cleanString env.eventIdRaw ≠ "")
    (hr : rateLimitStep env.rateDoc env.now = .ok newRate)
    (hev : env.events (cleanString env.eventIdRaw) = some ev)
    (hown : cleanString ev.senderUid = uid)
    (hfail : cleanupCommitsOkOf env (cleanString env.eventIdRaw) = false) :
    (sendSos env).result = .error .internal := by
  rw [sendSos_reaches_delivery env uid newRate ev hu hu0 he hr hev hown]
  by_cases hne : (trustedUidsOf env.contacts).isEmpty
  · have htrue := cleanupCommitsOk_of_no_recipients env (cleanString env.eventIdRaw) hne
    rw [htrue] at hfail
    cases hfail
  · simp only [dispatchDelivery, if_neg hne]
    simp only [cleanupCommitsOkOf] at hfail
    cases hb1 : (runCleanup (expoChunksOf env (cleanString env.eventIdRaw))
        env.commitOk 0).2.1 with
    | false => rfl
    | true =>
      rw [hb1, Bool.true_and] at hfail
      rw [hfail]
      rfl

/-- Witness for the amended C2 theorem: one run whose failing commit is in
the Expo cleanup loop, and one whose failing commit is in the web cleanup
loop. -/
theorem sendSos_cleanup_commit_failure_aborts_witness :
    (sendSos envC2).result = .error .internal ∧
    (sendSos envC2web).result = .error .internal :=
  ⟨sendSos_cleanup_commit_failure_aborts envC2 "a" ⟨0, 1⟩
      { senderUid := some "a", message := "help", lat := 32, lon := 13 }
      rfl (by decide) (by decide) (by decide) (by decide) (by decide) (by decide),
   sendSos_cleanup_commit_failure_aborts envC2web "a" ⟨0, 1⟩
      { senderUid := some "a", message := "help", lat := 32, lon := 13 }
      rfl (by decide) (by decide) (by decide) (by decide) (by decide) (by decide)⟩

/-- Claim C3: a token is marked for deletion if and only if transport A
reports the nested error string DeviceNotRegistered or InvalidCredentials
at details.details.error, or transport B reports error code
messaging/registration-token-not-registered or
messaging/invalid-registration-token; every per-token failure is counted in
the result's errors field, and only records of marked tokens are ever
deleted (all other tokens' records are kept). -/
theorem token_invalid_classification :
    (∀ (errors : List ExpoErrorEntry) (t : String),
        t ∈ invalidExpoTokensOf errors ↔
          ∃ tok r, ExpoErrorEntry.expoError tok r ∈ errors ∧
            cleanString (some tok) = t ∧ t ≠ "" ∧
            (r.detailsError.getD "" = "DeviceNotRegistered" ∨
             r.detailsError.getD "" = "InvalidCredentials")) ∧
    (∀ (errors : List FcmErrorEntry) (t : String),
        t ∈ invalidWebTokensOf errors ↔
          ∃ e, e ∈ errors ∧ cleanString e.token = t ∧ t ≠ "" ∧
            (cleanString (some e.code) = "messaging/registration-token-not-registered" ∨
             cleanString (some e.code) = "messaging/invalid-registration-token")) ∧
    (∀ env : DispatchEnv, ∀ r ∈ (sendSos env).deletedRefs,
        r ∈ collectRefs (expoMapOf env) (invalidExpoOf env (cleanString env.eventIdRaw)) ∨
        r ∈ collectRefs (webMapOf env) (invalidWebOf env)) ∧
    (∀ (env : DispatchEnv) (eid : String) (newRate : RateDoc) (res : DispatchResult),
        (dispatchDelivery env eid newRate).result = .ok res →
        res.errors = (expoResOf env eid).2.length + (fcmResOf env).2.length) := by
  refine ⟨?_, ?_, ?_, ?_⟩
  · intro errors t
    unfold invalidExpoTokensOf
    rw [mem_foldl_expoInvalidStep]
    simp
  · intro errors t
    unfold invalidWebTokensOf
    rw [mem_foldl_webInvalidStep]
    simp
  · intro env r hr
    by_cases h0 : env.auth.getD "" = ""
    · simp [sendSos, h0] at hr
    · by_cases h1 : cleanString env.eventIdRaw = ""
      · simp [sendSos, h0, h1] at hr
      · cases hrl : rateLimitStep env.rateDoc env.now with
        | error e => simp [sendSos, h0, h1, hrl] at hr
        | ok newRate =>
          cases hev : env.events (cleanString env.eventIdRaw) with
          | none => simp [sendSos, h0, h1, hrl, hev] at hr
          | some ev =>
            by_cases hown : cleanString ev.senderUid = env.auth.getD ""
            · have hsend : sendSos env =
                  dispatchDelivery env (cleanString env.eventIdRaw) newRate := by
                simp [sendSos, h0, h1, hrl, hev, hown]
              rw [hsend] at hr
              exact dispatchDelivery_deletedRefs_sub env _ newRate r hr
            · simp [sendSos, h0, h1, hrl, hev, hown] at hr
  · intro env eid newRate res h
    exact dispatchDelivery_ok_errors env eid newRate res h

/-- Witness for C3: in the double-device run, the deleted ref "r1" indeed
belongs to a token marked invalid for the Expo transport. -/
theorem token_invalid_classification_witness :
    "r1" ∈ collectRefs (expoMapOf envDup)
        (invalidExpoOf envDup (cleanString envDup.eventIdRaw)) ∨
    "r1" ∈ collectRefs (webMapOf envDup) (invalidWebOf envDup) :=
  token_invalid_classification.2.2.1 envDup "r1" (by decide)

/-- Claim C4: when two or more token documents hold the identical token
string for one transport, that token appears exactly once among the push
attempts of that transport; and when such a token is classified permanently
invalid, every originating document reference holding it is deleted. -/
theorem token_dedup_single_attempt_full_cleanup :
    (∀ (env : DispatchEnv) (eid t : String), t ≠ "" →
        2 ≤ ((flatTokenDocsOf env).filter fun d => d.expoPushToken == t).length →
        ((expoMessagesOf env eid).filter fun msg => msg.toTok == t).length = 1 ∧
        ((chunk (expoMessagesOf env eid) 100).flatten.filter
            fun msg => msg.toTok == t).length = 1) ∧
    (∀ (env : DispatchEnv) (t : String), t ≠ "" →
        2 ≤ ((flatTokenDocsOf env).filter fun d => d.webPushToken == t).length →
        (webTokensOf env).count t = 1 ∧
        ((chunk (webTokensOf env) 500).flatten).count t = 1) ∧
    (∀ (env : DispatchEnv) (uid : String) (newRate : RateDoc) (ev : SosEvent)
        (t : String) (d : CleanTokenDoc),
        env.auth = some uid → uid ≠ "" → cleanString env.eventIdRaw ≠ "" →
        rateLimitStep env.rateDoc env.now = .ok newRate →
        env.events (cleanString env.eventIdRaw) = some ev →
        cleanString ev.senderUid = uid →
        (∀ i, env.commitOk i = true) →
        (trustedUidsOf env.contacts).isEmpty = false →
        t ∈ invalidExpoOf env (cleanString env.eventIdRaw) →
        d ∈ flatTokenDocsOf env → d.expoPushToken = t →
        d.refId ∈ (sendSos env).deletedRefs) ∧
    (∀ (env : DispatchEnv) (uid : String) (newRate : RateDoc) (ev : SosEvent)
        (t : String) (d : CleanTokenDoc),
        env.auth = some uid → uid ≠ "" → cleanString env.eventIdRaw ≠ "" →
        rateLimitStep env.rateDoc env.now = .ok newRate →
        env.events (cleanString env.eventIdRaw) = some ev →
        cleanString ev.senderUid = uid →
        (∀ i, env.commitOk i = true) →
        (trustedUidsOf env.contacts).isEmpty = false →
        t ∈ invalidWebOf env →
        d ∈ flatTokenDocsOf env → d.webPushToken = t →
        d.refId ∈ (sendSos env).deletedRefs) := by
  have hmem_of_two : ∀ (sel : CleanTokenDoc → String) (docs : List CleanTokenDoc)
      (t : String), 2 ≤ (docs.filter fun d => sel d == t).length →
      ∃ d ∈ docs, sel d = t := by
    intro sel docs t h2
    have hne : (docs.filter fun d => sel d == t) ≠ [] := by
      intro hnil
      rw [hnil] at h2
      simp at h2
    obtain ⟨d, hd⟩ := List.exists_mem_of_ne_nil _ hne
    obtain ⟨hd1, hd2⟩ := List.mem_filter.mp hd
    exact ⟨d, hd1, beq_iff_eq.mp hd2⟩
  refine ⟨fun env eid t ht h2 => ?_, fun env t ht h2 => ?_, ?_, ?_⟩
  · have hcount : (expoTokensOf env).count t = 1 :=
      count_keys_buildTokenMap CleanTokenDoc.expoPushToken (flatTokenDocsOf env) t ht
        (hmem_of_two _ _ _ h2)
    refine ⟨?_, ?_⟩
    · rw [expoMessages_filter_count]
      exact hcount
    · rw [chunk_flatten, expoMessages_filter_count]
      exact hcount
  · have hcount : (webTokensOf env).count t = 1 :=
      count_keys_buildTokenMap CleanTokenDoc.webPushToken (flatTokenDocsOf env) t ht
        (hmem_of_two _ _ _ h2)
    exact ⟨hcount, by rw [chunk_flatten]; exact hcount⟩
  · intro env uid newRate ev t d hu hu0 he hr hev hown hcommit hne hinv hd hdt
    have ht : t ≠ "" := by
      simp only [invalidExpoOf, invalidExpoTokensOf] at hinv
      rcases (mem_foldl_expoInvalidStep t _ []).mp hinv with h | ⟨_, _, _, _, ht0, _⟩
      · simp at h
      · exact ht0
    rw [sendSos_reaches_delivery env uid newRate ev hu hu0 he hr hev hown,
      dispatchDelivery_deletedRefs_all_ok env _ newRate hne hcommit]
    apply List.mem_append_left
    apply mem_collectRefs _ _ t _ hinv
    have hfil : d ∈ (flatTokenDocsOf env).filter fun d' => d'.expoPushToken == t :=
      List.mem_filter.mpr ⟨hd, beq_iff_eq.mpr hdt⟩
    have hfne : ((flatTokenDocsOf env).filter fun d' => d'.expoPushToken == t) ≠ [] := by
      intro hnil
      rw [hnil] at hfil
      simp at hfil
    have hget := alGet_buildTokenMap CleanTokenDoc.expoPushToken (flatTokenDocsOf env) t ht
    rw [if_neg hfne] at hget
    show d.refId ∈ (alGet (expoMapOf env) t).getD []
    unfold expoMapOf
    rw [hget]
    exact List.mem_map_of_mem CleanTokenDoc.refId hfil
  · intro env uid newRate ev t d hu hu0 he hr hev hown hcommit hne hinv hd hdt
    have ht : t ≠ "" := by
      simp only [invalidWebOf, invalidWebTokensOf] at hinv
      rcases (mem_foldl_webInvalidStep t _ []).mp hinv with h | ⟨_, _, _, ht0, _⟩
      · simp at h
      · exact ht0
    rw [sendSos_reaches_delivery env uid newRate ev hu hu0 he hr hev hown,
      dispatchDelivery_deletedRefs_all_ok env _ newRate hne hcommit]
    apply List.mem_append_right
    apply mem_collectRefs _ _ t _ hinv
    have hfil : d ∈ (flatTokenDocsOf env).filter fun d' => d'.webPushToken == t :=
      List.mem_filter.mpr ⟨hd, beq_iff_eq.mpr hdt⟩
    have hfne : ((flatTokenDocsOf env).filter fun d' => d'.webPushToken == t) ≠ [] := by
      intro hnil
      rw [hnil] at hfil
      simp at hfil
    have hget := alGet_buildTokenMap CleanTokenDoc.webPushToken (flatTokenDocsOf env) t ht
    rw [if_neg hfne] at hget
    show d.refId ∈ (alGet (webMapOf env) t).getD []
    unfold webMapOf
    rw [hget]
    exact List.mem_map_of_mem CleanTokenDoc.refId hfil

/-- Witness for C4: in the double-device run, the shared token produces one
Expo message and both originating refs are deleted ("r2" shown here). -/
theorem token_dedup_single_attempt_full_cleanup_witness :
    ((expoMessagesOf envDup "e1").filter fun msg => msg.toTok == "T1").length = 1 ∧
    "r2" ∈ (sendSos envDup).deletedRefs :=
  ⟨(token_dedup_single_attempt_full_cleanup.1 envDup "e1" "T1" (by decide) (by decide)).1,
   token_dedup_single_attempt_full_cleanup.2.2.1 envDup "a" ⟨0, 1⟩
     { senderUid := some "a", message := "help", lat := 32, lon := 13 } "T1"
     { refId := "r2", expoPushToken := "T1", webPushToken := "" }
     rfl (by decide) (by decide) (by decide) (by decide) (by decide)
     (fun _ => rfl) (by decide) (by decide) (by decide) (by decide)⟩

end Khidmaty
